import Mathlib

/-!
Verification of the judging engine in src/judge.py.

The two entry points, execute_code and execute_code_sync, are embedded as
pure Lean functions.  Effects are made explicit:

* the result of json.loads on the raw test-suite text is an Option Json
  argument (none models a JSONDecodeError);
* each docker invocation (one subprocess.run call per test index) is an
  abstract SandboxOutcome supplied by an oracle Nat -> SandboxOutcome;
* an uncaught Python exception in the judge itself is an Except.error.

Values flowing through the judge (decoded suites, per-test records) are
modelled by the Json type below.
-/

namespace Judge

/-- JSON values, as produced by json.loads: objects are association lists in
textual order (json.loads keeps the last duplicate key). -/
inductive Json where
  | null
  | bool (b : Bool)
  | num (n : Int)
  | str (s : String)
  | arr (xs : List Json)
  | obj (kvs : List (String × Json))

/-- Python dict.get on a dict decoded from JSON: the last binding of the key
wins, absence gives none. -/
def pyGet (kvs : List (String × Json)) (k : String) : Option Json :=
  (kvs.reverse.find? (fun p => p.1 == k)).map (fun p => p.2)

/-- Python type name of a decoded JSON value, used in AttributeError and
TypeError diagnostics. -/
def pyType : Json → String
  | .null => "NoneType"
  | .bool _ => "bool"
  | .num _ => "int"
  | .str _ => "str"
  | .arr _ => "list"
  | .obj _ => "dict"

mutual

/-- Python == on decoded JSON values: deep structural comparison, with the
bool/int identification (True == 1, False == 0).  Dicts are compared here
pairwise in order, which agrees with Python on the records the judge builds. -/
def pyEq : Json → Json → Bool
  | .null, .null => true
  | .bool a, .bool b => a == b
  | .bool a, .num n => n == (if a then 1 else 0)
  | .num n, .bool a => n == (if a then 1 else 0)
  | .num a, .num b => a == b
  | .str a, .str b => a == b
  | .arr a, .arr b => pyEqList a b
  | .obj a, .obj b => pyEqObj a b
  | _, _ => false

def pyEqList : List Json → List Json → Bool
  | [], [] => true
  | a :: as, b :: bs => pyEq a b && pyEqList as bs
  | _, _ => false

def pyEqObj : List (String × Json) → List (String × Json) → Bool
  | [], [] => true
  | (k, v) :: as, (l, w) :: bs => k == l && pyEq v w && pyEqObj as bs
  | _, _ => false

end

/-- The record printed by the harness when the comparison succeeds
(judge.py line 51). -/
def passedRec (idx : Nat) (out : Json) : Json :=
  .obj [("status", .str "passed"), ("test_case", .num idx), ("output", out)]

/-- The record printed by the harness when the comparison fails
(judge.py line 53). -/
def failedRec (idx : Nat) (expected got : Json) : Json :=
  .obj [("status", .str "failed"), ("test_case", .num idx),
        ("expected", expected), ("got", got)]

/-- The error record, built both by the harness (line 55) and by the judge
for nonzero exits, timeouts and caught exceptions (lines 84-103). -/
def errorRec (idx : Nat) (err : String) : Json :=
  .obj [("status", .str "error"), ("test_case", .num idx), ("error", .str err)]

/-- The degraded-mode record appended by execute_code_sync when the docker
invocation raises (judge.py lines 186-192). -/
def warnRec (idx : Nat) : Json :=
  .obj [("status", .str "warning"), ("test_case", .num idx),
        ("message", .str "Docker not available, using local execution")]

/-- Shape of one invocation of the submitted callable `solution`. -/
inductive Call where
  | kwargs (d : List (String × Json))
  | args (l : List Json)
  | single (v : Json)

/-- Tail of the harness (judge.py lines 50-55): compare the value returned by
`solution` with the expected output and emit one tagged record; an exception
raised by `solution` becomes an error record. -/
def classify (sol : Call → Except String Json) (idx : Nat) (expected : Json)
    (c : Call) : Json :=
  match sol c with
  | .ok r => if pyEq r expected then passedRec idx r else failedRec idx expected r
  | .error e => errorRec idx e

/-- The harness built per test case (judge.py lines 42-55): dispatch on the
runtime type of the test input, invoke `solution`, compare, emit one record. -/
def harness (sol : Call → Except String Json) (idx : Nat)
    (input expected : Json) : Json :=
  match input with
  | .obj d => classify sol idx expected (.kwargs d)
  | .arr l => classify sol idx expected (.args l)
  | v => classify sol idx expected (.single v)

/-- Modelled from the spec, section 4.2: the binding table in the words of
the specification — mapping → keyword invocation from the mapping keys,
ordered sequence → positional invocation in order, anything else → a single
argument.  Compared against `harness` for the binding claim. -/
def bindCall_spec : Json → Call
  | .obj d => .kwargs d
  | .arr l => .args l
  | v => .single v

/-- test_case.get of the input field with default empty dict
(judge.py line 39). -/
def tcInput (kvs : List (String × Json)) : Json :=
  (pyGet kvs "input").getD (.obj [])

/-- test_case.get of the output field with default None (judge.py line 40). -/
def tcOutput (kvs : List (String × Json)) : Json :=
  (pyGet kvs "output").getD .null

/-- What the stripped stdout of a finished docker run held. -/
inductive Stdout where
  | empty
  | parsed (j : Json)
  | unparseable (msg : String)

/-- Outcome of one subprocess.run docker invocation: the process finished
with an exit code, stdout and stderr; or subprocess.TimeoutExpired was
raised; or some other exception was raised (docker missing, daemon down). -/
inductive SandboxOutcome where
  | completed (rc : Int) (out : Stdout) (stderr : String)
  | timeout
  | exc (msg : String)

/-- The record a successful run printed, if any: exit code 0 and parseable
stdout. -/
def stdoutParsed : SandboxOutcome → Option Json
  | .completed rc (.parsed j) _ => if rc = 0 then some j else none
  | _ => none

/-- The test_case field of a result record, when it is a dict holding an
integer there. -/
def recTestCase : Json → Option Int
  | .obj kvs =>
      match pyGet kvs "test_case" with
      | some (.num n) => some n
      | _ => none
  | _ => none

/-- Python r.get of the status key compared with a string literal. -/
def recStatusIs (r : Json) (s : String) : Bool :=
  match r with
  | .obj kvs =>
      match pyGet kvs "status" with
      | some (.str t) => t == s
      | _ => false
  | _ => false

/-- The status field of a result record, when present as a string. -/
def recStatus : Json → Option String
  | .obj kvs =>
      match pyGet kvs "status" with
      | some (.str t) => some t
      | _ => none
  | _ => none

/-- Handling of one subprocess outcome in execute_code (judge.py lines
76-103).  Returns the record appended to results, if any, and whether
passed_count was incremented.  Exit code 0 with empty stdout appends
nothing; a parsed non-dict record raises AttributeError at .get, caught by
the blanket except which appends an error record. -/
def stepFull (t : Nat) (idx : Nat) : SandboxOutcome → Option Json × Bool
  | .completed rc out stderr =>
      if rc = 0 then
        match out with
        | .empty => (none, false)
        | .parsed (.obj kvs) =>
            (some (.obj kvs),
             match pyGet kvs "status" with
             | some (.str s) => s == "passed"
             | _ => false)
        | .parsed j =>
            (some (errorRec idx (pyType j ++ " object has no attribute get")), false)
        | .unparseable msg => (some (errorRec idx msg), false)
      else
        (some (errorRec idx (if stderr == "" then "Execution failed" else stderr)),
         false)
  | .timeout =>
      (some (errorRec idx ("Timeout exceeded (" ++ toString t ++ "s)")), false)
  | .exc msg => (some (errorRec idx msg), false)

/-- One loop iteration of execute_code (judge.py lines 29-103): a suite
element that is not a dict raises AttributeError at .get before any docker
run, caught by the blanket except; a dict element is run in the sandbox. -/
def procElemFull (t : Nat) (idx : Nat) (e : Json) (o : SandboxOutcome) :
    Option Json × Bool :=
  match e with
  | .obj _ => stepFull t idx o
  | _ => (some (errorRec idx (pyType e ++ " object has no attribute get")), false)

/-- Handling of one subprocess outcome in execute_code_sync (judge.py lines
176-192).  Unlike execute_code there is no else branch: a nonzero exit
appends nothing; any raised exception (timeout included) appends the
degraded-mode warning record. -/
def stepSync (idx : Nat) : SandboxOutcome → Option Json × Bool
  | .completed rc out _ =>
      if rc = 0 then
        match out with
        | .empty => (none, false)
        | .parsed (.obj kvs) =>
            (some (.obj kvs),
             match pyGet kvs "status" with
             | some (.str s) => s == "passed"
             | _ => false)
        | .parsed _ => (some (warnRec idx), false)
        | .unparseable _ => (some (warnRec idx), false)
      else (none, false)
  | .timeout => (some (warnRec idx), false)
  | .exc _ => (some (warnRec idx), false)

/-- One loop iteration of execute_code_sync (judge.py lines 135-192). -/
def procElemSync (idx : Nat) (e : Json) (o : SandboxOutcome) :
    Option Json × Bool :=
  match e with
  | .obj _ => stepSync idx o
  | _ => (some (warnRec idx), false)

/-- The per-suite loop shared by both entry points: fold over the elements
with a running index, collecting appended records and the passed count. -/
def runLoop (f : Nat → Json → Option Json × Bool) : Nat → List Json → List Json × Nat
  | _, [] => ([], 0)
  | k, e :: es =>
      ((f k e).1.toList ++ (runLoop f (k + 1) es).1,
       (if (f k e).2 then 1 else 0) + (runLoop f (k + 1) es).2)

/-- Number of suite positions satisfying an indexed predicate. -/
def countIf (p : Nat → Json → Bool) : Nat → List Json → Nat
  | _, [] => 0
  | k, e :: es => (if p k e then 1 else 0) + countIf p (k + 1) es

/-- Python len and enumerate over the decoded top-level value: arrays yield
their elements, dicts their keys, strings their characters; null, booleans
and numbers raise an uncaught TypeError in len. -/
def pyIter : Json → Option (List Json)
  | .arr xs => some xs
  | .obj kvs => some (kvs.map (fun p => Json.str p.1))
  | .str s => some (s.toList.map (fun c => Json.str (String.singleton c)))
  | _ => none

/-- The dictionary returned by either entry point.  The decode-failure
verdict carries no test_results key in the source; it is modelled by the
empty list. -/
structure Verdict where
  status : String
  message : Option String
  passed : Nat
  total : Nat
  test_results : List Json

/-- execute_code (judge.py lines 10-113), as a function of the decode result
of test_cases_json and one sandbox outcome per test index.  An Except.error
models an uncaught TypeError on a non-iterable top-level value. -/
def execute_code (t : Nat) (decoded : Option Json)
    (oracle : Nat → SandboxOutcome) : Except String Verdict :=
  match decoded with
  | none => .ok ⟨"error", some "Invalid test cases JSON format", 0, 0, []⟩
  | some j =>
      match pyIter j with
      | none => .error ("object of type " ++ pyType j ++ " has no len()")
      | some elems =>
          let r := runLoop (fun k e => procElemFull t k e (oracle k)) 0 elems
          .ok ⟨if r.2 = elems.length then "passed" else "failed",
               none, r.2, elems.length, r.1⟩

/-- execute_code_sync (judge.py lines 116-202), same conventions as
execute_code; the timeout is fixed at 10 seconds in the source and does not
appear in any branch of the model. -/
def execute_code_sync (decoded : Option Json)
    (oracle : Nat → SandboxOutcome) : Except String Verdict :=
  match decoded with
  | none => .ok ⟨"error", some "Invalid test cases JSON format", 0, 0, []⟩
  | some j =>
      match pyIter j with
      | none => .error ("object of type " ++ pyType j ++ " has no len()")
      | some elems =>
          let r := runLoop (fun k e => procElemSync k e (oracle k)) 0 elems
          .ok ⟨if r.2 = elems.length ∧ 0 < elems.length then "passed" else "warning",
               some (if r.1.any (fun x => recStatusIs x "warning")
                     then "Using mock execution" else "Docker available"),
               r.2, elems.length, r.1⟩

/-- test_results of a returned verdict, empty when the call raised. -/
def verdictResults : Except String Verdict → List Json
  | .ok v => v.test_results
  | .error _ => []

/-- Whether a suite element makes execute_code append nothing for it: a dict
element whose sandbox run exits 0 with empty stdout. -/
def dropsFull (e : Json) (o : SandboxOutcome) : Bool :=
  match e, o with
  | .obj _, .completed rc .empty _ => rc == 0
  | _, _ => false

/-- Whether a suite element makes execute_code_sync append nothing for it: a
dict element whose sandbox run exits 0 with empty stdout, or exits nonzero. -/
def dropsSync (e : Json) (o : SandboxOutcome) : Bool :=
  match e, o with
  | .obj _, .completed rc out _ =>
      (rc != 0) || (match out with | .empty => true | _ => false)
  | _, _ => false

/-- Point update of a sandbox oracle. -/
def updOracle (o : Nat → SandboxOutcome) (m : Nat) (s : SandboxOutcome) :
    Nat → SandboxOutcome :=
  fun i => if i = m then s else o i

lemma runLoop_nil (f : Nat → Json → Option Json × Bool) (k : Nat) :
    runLoop f k [] = ([], 0) := rfl

lemma runLoop_cons (f : Nat → Json → Option Json × Bool) (k : Nat) (e : Json)
    (es : List Json) :
    runLoop f k (e :: es) =
      ((f k e).1.toList ++ (runLoop f (k + 1) es).1,
       (if (f k e).2 then 1 else 0) + (runLoop f (k + 1) es).2) := rfl

lemma runLoop_append (f : Nat → Json → Option Json × Bool) (xs ys : List Json)
    (k : Nat) :
    runLoop f k (xs ++ ys) =
      ((runLoop f k xs).1 ++ (runLoop f (k + xs.length) ys).1,
       (runLoop f k xs).2 + (runLoop f (k + xs.length) ys).2) := by
  induction xs generalizing k with
  | nil => simp [runLoop_nil]
  | cons e es ih =>
      simp only [List.cons_append, runLoop_cons, ih (k + 1), List.length_cons]
      have hk : k + (es.length + 1) = k + 1 + es.length := by omega
      rw [hk]
      simp [List.append_assoc, Nat.add_assoc]

lemma runLoop_congr (f g : Nat → Json → Option Json × Bool) (xs : List Json)
    (k : Nat) (h : ∀ i e, k ≤ i → i < k + xs.length → f i e = g i e) :
    runLoop f k xs = runLoop g k xs := by
  induction xs generalizing k with
  | nil => rfl
  | cons e es ih =>
      have h0 : f k e = g k e := h k e (Nat.le_refl k) (by simp)
      have ih' : runLoop f (k + 1) es = runLoop g (k + 1) es := by
        apply ih
        intro i e' hi1 hi2
        exact h i e' (by omega) (by simp at hi2 ⊢; omega)
      simp [runLoop_cons, h0, ih']

lemma runLoop_length (f : Nat → Json → Option Json × Bool)
    (p : Nat → Json → Bool) (xs : List Json) (k : Nat)
    (h : ∀ i e, ((f i e).1).isNone = p i e) :
    (runLoop f k xs).1.length + countIf p k xs = xs.length := by
  induction xs generalizing k with
  | nil => simp [runLoop_nil, countIf]
  | cons e es ih =>
      have hcell : (f k e).1.toList.length + (if p k e then 1 else 0) = 1 := by
        have := h k e
        cases hfe : (f k e).1 <;> simp [hfe] at this <;> simp [← this]
      simp only [runLoop_cons, countIf, List.length_append, List.length_cons]
      have := ih (k + 1)
      omega

lemma countIf_zero (p : Nat → Json → Bool) (xs : List Json) (k : Nat)
    (h : countIf p k xs = 0) :
    ∀ i (hi : i < xs.length), p (k + i) (xs.get ⟨i, hi⟩) = false := by
  induction xs generalizing k with
  | nil => intro i hi; simp at hi
  | cons e es ih =>
      intro i hi
      simp only [countIf] at h
      match i with
      | 0 =>
          simp only [List.get]
          by_cases hp : p k e
          · simp [hp] at h
          · simpa using hp
      | j + 1 =>
          have h' : countIf p (k + 1) es = 0 := by omega
          have := ih (k + 1) h' j (by simpa using hi)
          simpa [Nat.add_assoc, Nat.add_comm 1 j] using this

lemma runLoop_getElem (f : Nat → Json → Option Json × Bool) (xs : List Json)
    (k : Nat) (h : ∀ i (hi : i < xs.length), ((f (k + i) (xs.get ⟨i, hi⟩)).1).isNone = false) :
    (runLoop f k xs).1.length = xs.length ∧
    ∀ i (hi : i < xs.length),
      ((runLoop f k xs).1)[i]? = (f (k + i) (xs.get ⟨i, hi⟩)).1 := by
  induction xs generalizing k with
  | nil => exact ⟨rfl, fun i hi => by simp at hi⟩
  | cons e es ih =>
      have h0 : ((f k e).1).isNone = false := by
        simpa using h 0 (by simp)
      obtain ⟨r, hr⟩ : ∃ r, (f k e).1 = some r := by
        cases hfe : (f k e).1
        · rw [hfe] at h0; simp at h0
        · exact ⟨_, rfl⟩
      have hrec := ih (k + 1) (by
        intro i hi
        have := h (i + 1) (by simpa using Nat.succ_lt_succ hi)
        simpa [Nat.add_assoc, Nat.add_comm 1 i] using this)
      constructor
      · simp [runLoop_cons, hr, hrec.1]
      · intro i hi
        match i with
        | 0 => simp [runLoop_cons, hr]
        | j + 1 =>
            have hj : j < es.length := by simpa using hi
            have := hrec.2 j hj
            simp only [runLoop_cons, hr, Option.toList_some, List.singleton_append,
              List.getElem?_cons_succ, List.get]
            rw [this]
            have : k + (j + 1) = k + 1 + j := by omega
            rw [this]

lemma procElemFull_isNone (t k : Nat) (e : Json) (o : SandboxOutcome) :
    ((procElemFull t k e o).1).isNone = dropsFull e o := by
  cases e <;> cases o <;>
    (simp only [procElemFull, stepFull, dropsFull, Option.isNone_some]; try rfl)
  case obj kvs rc out stderr =>
    by_cases hrc : rc = 0
    · subst hrc
      cases out with
      | empty => simp
      | parsed j => cases j <;> simp
      | unparseable msg => simp
    · cases out <;> simp [hrc, if_neg hrc]

lemma procElemSync_isNone (k : Nat) (e : Json) (o : SandboxOutcome) :
    ((procElemSync k e o).1).isNone = dropsSync e o := by
  cases e <;> cases o <;>
    (simp only [procElemSync, stepSync, dropsSync, Option.isNone_some]; try rfl)
  case obj kvs rc out stderr =>
    by_cases hrc : rc = 0
    · subst hrc
      cases out with
      | empty => simp
      | parsed j => cases j <;> simp
      | unparseable msg => simp
    · cases out <;> simp [hrc, if_neg hrc]

lemma procElemFull_testCase (t k : Nat) (e : Json) (o : SandboxOutcome) (r : Json)
    (hr : (procElemFull t k e o).1 = some r) :
    recTestCase r = some (k : Int) ∨ stdoutParsed o = some r := by
  cases e with
  | obj kvs =>
      cases o with
      | completed rc out stderr =>
          simp only [procElemFull, stepFull] at hr
          by_cases hrc : rc = 0
          · rw [if_pos hrc] at hr
            subst hrc
            cases out with
            | empty => simp at hr
            | parsed j =>
                cases j with
                | obj kvs2 =>
                    injection hr with h
                    exact Or.inr (by simp [stdoutParsed, ← h])
                | null => injection hr with h; exact Or.inl (h ▸ rfl)
                | bool b => injection hr with h; exact Or.inl (h ▸ rfl)
                | num n => injection hr with h; exact Or.inl (h ▸ rfl)
                | str s => injection hr with h; exact Or.inl (h ▸ rfl)
                | arr xs => injection hr with h; exact Or.inl (h ▸ rfl)
            | unparseable msg =>
                injection hr with h
                exact Or.inl (h ▸ rfl)
          · rw [if_neg hrc] at hr
            injection hr with h
            exact Or.inl (h ▸ rfl)
      | timeout =>
          simp only [procElemFull, stepFull] at hr
          injection hr with h
          exact Or.inl (h ▸ rfl)
      | exc msg =>
          simp only [procElemFull, stepFull] at hr
          injection hr with h
          exact Or.inl (h ▸ rfl)
  | null =>
      simp only [procElemFull] at hr
      injection hr with h
      exact Or.inl (h ▸ rfl)
  | bool b =>
      simp only [procElemFull] at hr
      injection hr with h
      exact Or.inl (h ▸ rfl)
  | num n =>
      simp only [procElemFull] at hr
      injection hr with h
      exact Or.inl (h ▸ rfl)
  | str s =>
      simp only [procElemFull] at hr
      injection hr with h
      exact Or.inl (h ▸ rfl)
  | arr xs =>
      simp only [procElemFull] at hr
      injection hr with h
      exact Or.inl (h ▸ rfl)

lemma recTestCase_errorRec (k : Nat) (msg : String) :
    recTestCase (errorRec k msg) = some (k : Int) := rfl

lemma recStatusIs_warnRec (k : Nat) :
    recStatusIs (warnRec k) "warning" = true := rfl

lemma harness_bind (sol : Call → Except String Json) (idx : Nat)
    (input expected : Json) :
    harness sol idx input expected
      = classify sol idx expected (bindCall_spec input) := by
  cases input <;> rfl

/-- C4, amended: only a raw string that fails to decode as JSON yields the
terminal error verdict: both entry points then return status error with
passed = 0, total = 0, an empty result list, and the same verdict for every
sandbox oracle, so no sandbox is started.  A decoded non-array top-level
value is not rejected (see the counterexample). -/
theorem decode_failure_terminal :
    (∀ t oracle, execute_code t none oracle =
        Except.ok ⟨"error", some "Invalid test cases JSON format", 0, 0, []⟩)
    ∧ (∀ oracle, execute_code_sync none oracle =
        Except.ok ⟨"error", some "Invalid test cases JSON format", 0, 0, []⟩) :=
  ⟨fun _ _ => rfl, fun _ => rfl⟩

/-- C4 counterexample: the input text decoding to an empty JSON object — a
non-array top-level value — is not rejected: execute_code returns status
passed, not the claimed error verdict. -/
theorem nonarray_not_rejected_cex :
    (execute_code 10 (some (Json.obj [])) (fun _ => SandboxOutcome.timeout)).map
        (fun v => (v.status, v.passed, v.total))
      = Except.ok ("passed", 0, 0) := rfl

/-- C5: the call shape is chosen solely by the runtime type of the test
input: the harness equals the classifier applied to the call built by the
binding table of the spec — a mapping invokes solution with its keys as
named arguments, an ordered sequence positionally in order, and any other
value as the single argument. -/
theorem binding_by_runtime_type (sol : Call → Except String Json) (idx : Nat)
    (input expected : Json) :
    harness sol idx input expected
      = classify sol idx expected (bindCall_spec input) :=
  harness_bind sol idx input expected

/-- C6: a test-suite element with no input field is treated exactly as an
empty mapping, so solution is invoked with no arguments; an element with no
output field is compared against null, and that comparison yields a passed
or failed record, never an error. -/
theorem missing_fields_defaults (sol : Call → Except String Json) (idx : Nat)
    (kvs : List (String × Json)) :
    (pyGet kvs "input" = none →
        tcInput kvs = Json.obj [] ∧
        harness sol idx (tcInput kvs) (tcOutput kvs)
          = classify sol idx (tcOutput kvs) (Call.kwargs []))
    ∧ (pyGet kvs "output" = none →
        tcOutput kvs = Json.null ∧
        ∀ r, sol (bindCall_spec (tcInput kvs)) = Except.ok r →
          harness sol idx (tcInput kvs) (tcOutput kvs)
            = if pyEq r Json.null then passedRec idx r
              else failedRec idx Json.null r) := by
  constructor
  · intro h
    have h1 : tcInput kvs = Json.obj [] := by simp [tcInput, h]
    exact ⟨h1, by rw [h1]; rfl⟩
  · intro h
    have h1 : tcOutput kvs = Json.null := by simp [tcOutput, h]
    refine ⟨h1, fun r hr => ?_⟩
    rw [h1, harness_bind]
    simp [classify, hr]

/-- Witness for C6 at the empty element: both fields are missing, solution
is called with no arguments and its null result is compared against null. -/
theorem missing_fields_defaults_w :
    (pyGet [] "input" = none)
    ∧ (tcInput [] = Json.obj [] ∧
        harness (fun _ => Except.ok Json.null) 0 (tcInput []) (tcOutput [])
          = classify (fun _ => Except.ok Json.null) 0 (tcOutput [])
              (Call.kwargs []))
    ∧ (pyGet [] "output" = none)
    ∧ (tcOutput [] = Json.null ∧
        ∀ r, (fun _ => Except.ok Json.null : Call → Except String Json)
              (bindCall_spec (tcInput [])) = Except.ok r →
          harness (fun _ => Except.ok Json.null) 0 (tcInput []) (tcOutput [])
            = if pyEq r Json.null then passedRec 0 r
              else failedRec 0 Json.null r) :=
  ⟨rfl, (missing_fields_defaults (fun _ => Except.ok Json.null) 0 []).1 rfl,
   rfl, (missing_fields_defaults (fun _ => Except.ok Json.null) 0 []).2 rfl⟩

/-- C1, amended: for every verdict built after a successful decode,
execute_code reports passed exactly when passedCount = totalCount — with no
totalCount > 0 requirement, so the empty suite is reported passed — while
execute_code_sync reports passed exactly when totalCount > 0 and
passedCount = totalCount, for every verdict it returns. -/
theorem overall_passed_iff_counts :
    (∀ t j oracle v, execute_code t (some j) oracle = Except.ok v →
        (v.status = "passed" ↔ v.passed = v.total))
    ∧ (∀ d oracle v, execute_code_sync d oracle = Except.ok v →
        (v.status = "passed" ↔ (0 < v.total ∧ v.passed = v.total))) := by
  constructor
  · intro t j oracle v h
    cases hit : pyIter j with
    | none => simp [execute_code, hit] at h
    | some elems =>
        simp only [execute_code, hit] at h
        injection h with h
        subst h
        by_cases hc :
            (runLoop (fun k e => procElemFull t k e (oracle k)) 0 elems).2
              = elems.length <;>
          simp [hc]
  · intro d oracle v h
    cases d with
    | none =>
        simp only [execute_code_sync] at h
        injection h with h
        subst h
        simp
    | some j =>
        cases hit : pyIter j with
        | none => simp [execute_code_sync, hit] at h
        | some elems =>
            simp only [execute_code_sync, hit] at h
            injection h with h
            subst h
            by_cases hc :
                (runLoop (fun k e => procElemSync k e (oracle k)) 0 elems).2
                    = elems.length ∧ 0 < elems.length
            · simp [hc]
            · simp only [if_neg hc]
              constructor
              · intro habs
                exact absurd habs (by simp)
              · intro habs
                exact absurd ⟨habs.2, habs.1⟩ hc

/-- Witness for C1 at concrete inputs: the empty suite for execute_code and
the decode-failure verdict for execute_code_sync. -/
theorem overall_passed_iff_counts_w :
    (execute_code 10 (some (Json.arr [])) (fun _ => SandboxOutcome.timeout)
        = Except.ok ⟨"passed", none, 0, 0, []⟩)
    ∧ ((Verdict.mk "passed" none 0 0 []).status = "passed" ↔
        (Verdict.mk "passed" none 0 0 []).passed
          = (Verdict.mk "passed" none 0 0 []).total)
    ∧ (execute_code_sync none (fun _ => SandboxOutcome.timeout)
        = Except.ok ⟨"error", some "Invalid test cases JSON format", 0, 0, []⟩)
    ∧ ((Verdict.mk "error" (some "Invalid test cases JSON format") 0 0 []).status
          = "passed" ↔
        (0 < (Verdict.mk "error" (some "Invalid test cases JSON format") 0 0 []).total
          ∧ (Verdict.mk "error" (some "Invalid test cases JSON format") 0 0 []).passed
              = (Verdict.mk "error" (some "Invalid test cases JSON format") 0 0 []).total)) :=
  ⟨rfl,
   overall_passed_iff_counts.1 10 (Json.arr []) (fun _ => SandboxOutcome.timeout)
     (Verdict.mk "passed" none 0 0 []) rfl,
   rfl,
   overall_passed_iff_counts.2 none (fun _ => SandboxOutcome.timeout)
     (Verdict.mk "error" (some "Invalid test cases JSON format") 0 0 []) rfl⟩

/-- C1 counterexample: on the empty suite execute_code reports status passed
with totalCount = 0, so passed does not require totalCount > 0. -/
theorem overall_passed_empty_suite_cex :
    (execute_code 10 (some (Json.arr [])) (fun _ => SandboxOutcome.timeout)).map
        (fun v => (v.status, v.total))
      = Except.ok ("passed", 0) := rfl

/-- C10: every verdict execute_code_sync returns has overall status passed,
warning or error, and in particular never failed, whatever the suite and
sandbox outcomes — even when individual result records are failed. -/
theorem sync_status_never_failed (d : Option Json)
    (oracle : Nat → SandboxOutcome) (v : Verdict)
    (h : execute_code_sync d oracle = Except.ok v) :
    (v.status = "passed" ∨ v.status = "warning" ∨ v.status = "error")
    ∧ v.status ≠ "failed" := by
  cases d with
  | none =>
      simp only [execute_code_sync] at h
      injection h with h
      subst h
      simp
  | some j =>
      cases hit : pyIter j with
      | none => simp [execute_code_sync, hit] at h
      | some elems =>
          simp only [execute_code_sync, hit] at h
          injection h with h
          subst h
          constructor
          · by_cases hc :
                (runLoop (fun k e => procElemSync k e (oracle k)) 0 elems).2
                    = elems.length ∧ 0 < elems.length <;>
              simp [hc]
          · by_cases hc :
                (runLoop (fun k e => procElemSync k e (oracle k)) 0 elems).2
                    = elems.length ∧ 0 < elems.length <;>
              simp [hc]

/-- Witness for C10: a suite with one failed test record still yields a
submission status other than failed. -/
theorem sync_status_never_failed_w :
    (execute_code_sync (some (Json.arr [Json.obj []]))
        (fun i => SandboxOutcome.completed 0
          (Stdout.parsed (failedRec i (Json.num 99) (Json.num 1))) "")
        = Except.ok ⟨"warning", some "Docker available", 0, 1,
            [failedRec 0 (Json.num 99) (Json.num 1)]⟩)
    ∧ (((Verdict.mk "warning" (some "Docker available") 0 1
          [failedRec 0 (Json.num 99) (Json.num 1)]).status = "passed"
        ∨ (Verdict.mk "warning" (some "Docker available") 0 1
            [failedRec 0 (Json.num 99) (Json.num 1)]).status = "warning"
        ∨ (Verdict.mk "warning" (some "Docker available") 0 1
            [failedRec 0 (Json.num 99) (Json.num 1)]).status = "error")
      ∧ (Verdict.mk "warning" (some "Docker available") 0 1
          [failedRec 0 (Json.num 99) (Json.num 1)]).status ≠ "failed") :=
  ⟨rfl,
   sync_status_never_failed (some (Json.arr [Json.obj []]))
     (fun i => SandboxOutcome.completed 0
       (Stdout.parsed (failedRec i (Json.num 99) (Json.num 1))) "")
     (Verdict.mk "warning" (some "Docker available") 0 1
       [failedRec 0 (Json.num 99) (Json.num 1)]) rfl⟩

/-- C2, amended: after a successful decode the result list holds at most one
entry per test case — its length plus the number of dropped test cases
equals totalCount.  A test case is dropped by execute_code exactly when its
sandbox run exits 0 with empty stdout, and by execute_code_sync also when
the run exits nonzero; with no such run the length equals totalCount. -/
theorem results_length_total_drops (t : Nat) (xs : List Json)
    (oracle : Nat → SandboxOutcome) :
    (verdictResults (execute_code t (some (Json.arr xs)) oracle)).length
        + countIf (fun k e => dropsFull e (oracle k)) 0 xs = xs.length
    ∧ (verdictResults (execute_code_sync (some (Json.arr xs)) oracle)).length
        + countIf (fun k e => dropsSync e (oracle k)) 0 xs = xs.length := by
  constructor
  · have := runLoop_length (fun k e => procElemFull t k e (oracle k))
      (fun k e => dropsFull e (oracle k)) xs 0
      (fun i e => procElemFull_isNone t i e (oracle i))
    simpa [execute_code, verdictResults, pyIter] using this
  · have := runLoop_length (fun k e => procElemSync k e (oracle k))
      (fun k e => dropsSync e (oracle k)) xs 0
      (fun i e => procElemSync_isNone i e (oracle i))
    simpa [execute_code_sync, verdictResults, pyIter] using this

/-- C2 counterexample: a single test case whose sandbox run exits 0 with
empty stdout — reachable when the submitted code exits the interpreter
before the harness prints — appends nothing, so the result list is shorter
than totalCount. -/
theorem results_length_drop_cex :
    (execute_code 10 (some (Json.arr [Json.obj []]))
        (fun _ => SandboxOutcome.completed 0 Stdout.empty "")).map
        (fun v => (v.total, v.test_results.length))
      = Except.ok (1, 0) := rfl

/-- C3, amended: whenever no test case is dropped (no sandbox run exits 0
with empty stdout) and every record parsed from sandbox stdout carries the
index of its own test — as the harness-built records do — the i-th entry of
test_results carries test_case = i.  Records parsed from stdout are taken
verbatim, and dropped entries shift later positions (see counterexample). -/
theorem results_index_aligned (t : Nat) (xs : List Json)
    (oracle : Nat → SandboxOutcome)
    (hnd : countIf (fun k e => dropsFull e (oracle k)) 0 xs = 0)
    (hhon : ∀ i j, stdoutParsed (oracle i) = some j →
        recTestCase j = some (i : Int)) :
    ∀ (i : Nat) (r : Json),
      (verdictResults (execute_code t (some (Json.arr xs)) oracle))[i]? = some r →
        recTestCase r = some (i : Int) := by
  intro i r hir
  have hres : verdictResults (execute_code t (some (Json.arr xs)) oracle)
      = (runLoop (fun k e => procElemFull t k e (oracle k)) 0 xs).1 := by
    simp [execute_code, verdictResults, pyIter]
  rw [hres] at hir
  have hnone : ∀ i2 (hi2 : i2 < xs.length),
      (((fun k e => procElemFull t k e (oracle k)) (0 + i2)
          (xs.get ⟨i2, hi2⟩)).1).isNone = false := by
    intro i2 hi2
    have hz := countIf_zero (fun k e => dropsFull e (oracle k)) xs 0 hnd i2 hi2
    simp only [procElemFull_isNone]
    simpa using hz
  obtain ⟨hlen, hget⟩ :=
    runLoop_getElem (fun k e => procElemFull t k e (oracle k)) xs 0 hnone
  have hi : i < xs.length := by
    by_contra hge
    push_neg at hge
    have hnone2 :
        ((runLoop (fun k e => procElemFull t k e (oracle k)) 0 xs).1)[i]? = none :=
      List.getElem?_eq_none (by omega)
    rw [hnone2] at hir
    exact Option.noConfusion hir
  have := hget i hi
  rw [hir] at this
  have hproc : (procElemFull t (0 + i) (xs.get ⟨i, hi⟩) (oracle (0 + i))).1
      = some r := this.symm
  rcases procElemFull_testCase t (0 + i) (xs.get ⟨i, hi⟩) (oracle (0 + i)) r hproc with
    h | h
  · simpa using h
  · have := hhon (0 + i) r h
    simpa using this

/-- An oracle whose every run prints an honest record tagged with the index
of its own test, as the harness does. -/
def honestOracle : Nat → SandboxOutcome :=
  fun i => SandboxOutcome.completed 0
    (Stdout.parsed (Json.obj
      [("status", Json.str "error"), ("test_case", Json.num i),
       ("error", Json.str "name solution is not defined")])) ""

/-- Witness for C3 on a two-test suite with honest sandbox output. -/
theorem results_index_aligned_w :
    (countIf (fun k e => dropsFull e (honestOracle k)) 0
        [Json.obj [], Json.obj []] = 0)
    ∧ (∀ i j, stdoutParsed (honestOracle i) = some j →
        recTestCase j = some (i : Int))
    ∧ (∀ (i : Nat) (r : Json),
        (verdictResults (execute_code 10 (some (Json.arr [Json.obj [], Json.obj []]))
            honestOracle))[i]? = some r →
          recTestCase r = some (i : Int)) :=
  ⟨rfl,
   fun i j h => by
     injection h with h2
     exact h2 ▸ rfl,
   results_index_aligned 10 [Json.obj [], Json.obj []] honestOracle rfl
     (fun i j h => by
       injection h with h2
       exact h2 ▸ rfl)⟩

/-- C3 counterexample: a sandbox run that exits 0 printing a record tagged
with a foreign index — reachable when the submitted code prints its own
record and leaves before the harness prints — is stored verbatim, so the
first entry carries test_case 5 instead of 0. -/
theorem results_index_forged_cex :
    (verdictResults (execute_code 10 (some (Json.arr [Json.obj []]))
        (fun _ => SandboxOutcome.completed 0
          (Stdout.parsed (Json.obj
            [("status", Json.str "passed"), ("test_case", Json.num 5)])) ""))).map
        recTestCase
      = [some 5] := rfl

lemma runLoop_point (proc : Nat → Json → SandboxOutcome → Option Json × Bool)
    (o : Nat → SandboxOutcome) (a b : List Json) (e : Json)
    (s : SandboxOutcome) :
    (runLoop (fun k x => proc k x (updOracle o a.length s k)) 0 (a ++ e :: b)).1
      = (runLoop (fun k x => proc k x (o k)) 0 a).1
        ++ (proc a.length e s).1.toList
        ++ (runLoop (fun k x => proc k x (o k)) (a.length + 1) b).1 := by
  have hcongr1 :
      runLoop (fun k x => proc k x (updOracle o a.length s k)) 0 a
        = runLoop (fun k x => proc k x (o k)) 0 a := by
    apply runLoop_congr
    intro i x _ hi2
    have hne : i ≠ a.length := by simp at hi2; omega
    simp [updOracle, hne]
  have hcongr2 :
      runLoop (fun k x => proc k x (updOracle o a.length s k)) (a.length + 1) b
        = runLoop (fun k x => proc k x (o k)) (a.length + 1) b := by
    apply runLoop_congr
    intro i x hi1 _
    have hne : i ≠ a.length := by omega
    simp [updOracle, hne]
  rw [runLoop_append, runLoop_cons]
  simp only [Nat.zero_add]
  rw [hcongr1, hcongr2]
  simp [updOracle, List.append_assoc]

/-- C7: when the sandbox run of one test times out, that test contributes
exactly the error record with message Timeout exceeded, and every other
test case contributes the same outcome it would have produced under any
other sandbox outcome for the timed-out test. -/
theorem timeout_outcome_independent (t : Nat) (o : Nat → SandboxOutcome)
    (a b : List Json) (kvs : List (String × Json)) (s : SandboxOutcome) :
    ∃ P Q,
      verdictResults (execute_code t (some (Json.arr (a ++ Json.obj kvs :: b)))
          (updOracle o a.length SandboxOutcome.timeout))
        = P ++ errorRec a.length ("Timeout exceeded (" ++ toString t ++ "s)") :: Q
      ∧ verdictResults (execute_code t (some (Json.arr (a ++ Json.obj kvs :: b)))
          (updOracle o a.length s))
        = P ++ (procElemFull t a.length (Json.obj kvs) s).1.toList ++ Q := by
  refine ⟨(runLoop (fun k x => procElemFull t k x (o k)) 0 a).1,
          (runLoop (fun k x => procElemFull t k x (o k)) (a.length + 1) b).1,
          ?_, ?_⟩
  · have hp := runLoop_point (fun k x so => procElemFull t k x so) o a b
      (Json.obj kvs) SandboxOutcome.timeout
    have hv : verdictResults (execute_code t
        (some (Json.arr (a ++ Json.obj kvs :: b)))
        (updOracle o a.length SandboxOutcome.timeout))
        = (runLoop (fun k x => procElemFull t k x
            (updOracle o a.length SandboxOutcome.timeout k)) 0
            (a ++ Json.obj kvs :: b)).1 := by
      simp [execute_code, verdictResults, pyIter]
    rw [hv, hp]
    simp [procElemFull, stepFull]
  · have hp := runLoop_point (fun k x so => procElemFull t k x so) o a b
      (Json.obj kvs) s
    have hv : verdictResults (execute_code t
        (some (Json.arr (a ++ Json.obj kvs :: b)))
        (updOracle o a.length s))
        = (runLoop (fun k x => procElemFull t k x
            (updOracle o a.length s k)) 0 (a ++ Json.obj kvs :: b)).1 := by
      simp [execute_code, verdictResults, pyIter]
    rw [hv, hp]

lemma runLoop_allWarn (f : Nat → Json → Option Json × Bool)
    (h : ∀ k e, f k e = (some (warnRec k), false)) (k : Nat) (xs : List Json) :
    runLoop f k xs = ((List.range' k xs.length).map warnRec, 0) := by
  induction xs generalizing k with
  | nil => simp [runLoop_nil]
  | cons e es ih =>
      simp [runLoop_cons, h, ih (k + 1), List.range'_succ]

/-- C8: when the isolation backend is unusable for the whole submission —
every docker invocation raises — execute_code_sync still returns a verdict
instead of propagating the failure: every test case is marked with the
distinguishable warning record saying docker is unavailable, and the
submission status is warning with the degraded-mode diagnostic message. -/
theorem backend_unavailable_warning (xs : List Json)
    (oracle : Nat → SandboxOutcome) (hx : xs ≠ [])
    (hb : ∀ i, ∃ msg, oracle i = SandboxOutcome.exc msg) :
    execute_code_sync (some (Json.arr xs)) oracle =
      Except.ok ⟨"warning", some "Using mock execution", 0, xs.length,
                 (List.range' 0 xs.length).map warnRec⟩ := by
  have hf : ∀ k e, procElemSync k e (oracle k) = (some (warnRec k), false) := by
    intro k e
    obtain ⟨msg, hm⟩ := hb k
    rw [hm]
    cases e <;> rfl
  have hrun := runLoop_allWarn (fun k e => procElemSync k e (oracle k)) hf 0 xs
  cases xs with
  | nil => exact absurd rfl hx
  | cons e es =>
      have hcond : ¬((0 : Nat) = (e :: es).length ∧ 0 < (e :: es).length) := by
        simp
      have hany : (((List.range' 0 (e :: es).length).map warnRec).any
          (fun x => recStatusIs x "warning")) = true := by
        simp [List.range'_succ, recStatusIs_warnRec]
      simp only [execute_code_sync, pyIter, hrun, hcond, hany]
      simp

/-- Witness for C8: one test case against an oracle that always raises. -/
theorem backend_unavailable_warning_w :
    ([Json.obj []] ≠ ([] : List Json))
    ∧ (∀ i, ∃ msg, (fun _ : Nat => SandboxOutcome.exc "docker not found") i
        = SandboxOutcome.exc msg)
    ∧ execute_code_sync (some (Json.arr [Json.obj []]))
        (fun _ : Nat => SandboxOutcome.exc "docker not found")
      = Except.ok ⟨"warning", some "Using mock execution", 0, 1,
          (List.range' 0 1).map warnRec⟩ :=
  ⟨List.cons_ne_nil (Json.obj []) [],
   fun _ => ⟨"docker not found", rfl⟩,
   backend_unavailable_warning [Json.obj []]
     (fun _ : Nat => SandboxOutcome.exc "docker not found")
     (List.cons_ne_nil (Json.obj []) [])
     (fun _ => ⟨"docker not found", rfl⟩)⟩

/-- C9, amended: a backend failure at one test case is never retried — it is
immediately recorded as the warning outcome of that test case, not an error
outcome — and later test cases still consult the backend independently:
there is no latching of consecutive failures into suite-wide
unavailability.  The other test cases contribute the same outcomes they
would have produced under any other sandbox outcome for the failing test. -/
theorem backend_failure_no_retry_no_latch (o : Nat → SandboxOutcome)
    (a b : List Json) (kvs : List (String × Json)) (msg : String)
    (s : SandboxOutcome) :
    ∃ P Q,
      verdictResults (execute_code_sync (some (Json.arr (a ++ Json.obj kvs :: b)))
          (updOracle o a.length (SandboxOutcome.exc msg)))
        = P ++ warnRec a.length :: Q
      ∧ verdictResults (execute_code_sync (some (Json.arr (a ++ Json.obj kvs :: b)))
          (updOracle o a.length s))
        = P ++ (procElemSync a.length (Json.obj kvs) s).1.toList ++ Q := by
  refine ⟨(runLoop (fun k x => procElemSync k x (o k)) 0 a).1,
          (runLoop (fun k x => procElemSync k x (o k)) (a.length + 1) b).1,
          ?_, ?_⟩
  · have hp := runLoop_point (fun k x so => procElemSync k x so) o a b
      (Json.obj kvs) (SandboxOutcome.exc msg)
    have hv : verdictResults (execute_code_sync
        (some (Json.arr (a ++ Json.obj kvs :: b)))
        (updOracle o a.length (SandboxOutcome.exc msg)))
        = (runLoop (fun k x => procElemSync k x
            (updOracle o a.length (SandboxOutcome.exc msg) k)) 0
            (a ++ Json.obj kvs :: b)).1 := by
      simp [execute_code_sync, verdictResults, pyIter]
    rw [hv, hp]
    simp [procElemSync, stepSync]
  · have hp := runLoop_point (fun k x so => procElemSync k x so) o a b
      (Json.obj kvs) s
    have hv : verdictResults (execute_code_sync
        (some (Json.arr (a ++ Json.obj kvs :: b)))
        (updOracle o a.length s))
        = (runLoop (fun k x => procElemSync k x
            (updOracle o a.length s k)) 0 (a ++ Json.obj kvs :: b)).1 := by
      simp [execute_code_sync, verdictResults, pyIter]
    rw [hv, hp]

/-- C9 counterexample: after two consecutive backend-creation failures the
third test case is still executed in the backend and can even pass — the
remainder of the suite is not treated as unavailable — and the failing
tests are recorded as warning outcomes, not Error outcomes. -/
theorem backend_failure_latch_cex :
    (verdictResults (execute_code_sync
        (some (Json.arr [Json.obj [], Json.obj [], Json.obj []]))
        (fun i => if i < 2 then SandboxOutcome.exc "docker daemon unreachable"
          else SandboxOutcome.completed 0
            (Stdout.parsed (Json.obj
              [("status", Json.str "passed"), ("test_case", Json.num 2)])) ""))).map
        recStatus
      = [some "warning", some "warning", some "passed"] := rfl

end Judge
